import Mathlib

/-!
Verification of the Chilena microkernel's process/syscall/IPC/memory core.

Shallow embedding of the relevant kernel code:
  * `src/sys/syscall/mod.rs`  — user-pointer validation and the dispatcher
  * `src/sys/sched.rs`        — round-robin scheduler (`tick`, `schedule`, `switch_to`)
  * `src/sys/process.rs`      — process table, `terminate`, `Process::create`/`spawn`
  * `src/sys/ipc.rs`          — single-slot mailbox `send`/`recv`
  * `src/sys/mem/bitmap.rs`   — bitmap frame allocator

Machine integers (`usize`/`u64`) are modelled as `Nat` with explicit
`% 2^64` where wrap-around matters.  Raw memory, paging and the ELF parser
are collaborators of the verified core and enter as explicit parameters.
-/

namespace Chilena

/-! ### Constants (src/sys/process.rs, src/sys/ipc.rs, src/sys/sched.rs) -/

def MAX_HANDLES : Nat := 64

def MAX_PROCS : Nat := 8

/-- 10 MiB per process (`10 << 20`). -/
def MAX_PROC_MEM : Nat := 10485760

/-- Start address of userspace (`0x0080_0000`). -/
def USER_BASE : Nat := 0x800000

/-- IPC payload size in bytes. -/
def MSG_PAYLOAD : Nat := 64

/-- `2^64`, the modulus of `u64`/`usize` arithmetic. -/
def U64_MOD : Nat := 18446744073709551616

/-- `usize::MAX` (`2^64 - 1`), the error sentinel of the syscall ABI. -/
def USIZE_MAX : Nat := 18446744073709551615

/-- Scheduling decision every 10 ticks (src/sys/sched.rs). -/
def SCHED_INTERVAL : Nat := 10

/-- `user_end` as computed in `validate_user_ptr`:
`USER_BASE + (MAX_PROCS - 1) * MAX_PROC_MEM`. -/
def userEnd : Nat := USER_BASE + (MAX_PROCS - 1) * MAX_PROC_MEM

/-! ### User-pointer validation (src/sys/syscall/mod.rs, `validate_user_ptr`) -/

/-- `validate_user_ptr(ptr, len)`: zero length passes; otherwise
`start.checked_add(len)` must not overflow `u64` and the whole range must
sit in the userspace window. -/
def validate_user_ptr (ptr len : Nat) : Bool :=
  if len = 0 then true
  else if U64_MOD ≤ ptr + len then false
  else decide (USER_BASE ≤ ptr) && decide (ptr + len ≤ userEnd)

/-- Size of `sys::ipc::Message` (`repr(C)`: `usize` sender, `u32` kind,
64 payload bytes, padded to alignment 8). -/
def msgStructSize : Nat := 80

/-- Size of `sys::fs::FileInfo` (`usize` size, `bool` is_dir, `String` name
= 8 + 24 + 1 rounded up to alignment 8 on x86_64). -/
def fileInfoSize : Nat := 40

/-- Size of a `(usize, sys::fs::PollEvent)` poll-list entry (8 + 1 rounded
up to alignment 8). -/
def pollEntrySize : Nat := 16

/-- The service-layer invocation a successful dispatch forwards to.
Dereferencing of user memory happens only inside the service layer /
slice construction, i.e. only after a `call` outcome. -/
inductive SvcCall where
  | exitc (code : Nat)
  | sleepc (bits : Nat)
  | spawnc (pathPtr pathLen argsPtr argsLen : Nat)
  | haltc (code : Nat)
  | openc (pathPtr pathLen flags : Nat)
  | closec (handle : Nat)
  | readc (handle bufPtr bufLen : Nat)
  | writec (handle bufPtr bufLen : Nat)
  | dupc (oldh newh : Nat)
  | statc (pathPtr pathLen outPtr : Nat)
  | removec (pathPtr pathLen : Nat)
  | kindc (handle : Nat)
  | sendc (target kind dataPtr dataLen : Nat)
  | recvc (msgPtr : Nat)
  | pollc (listPtr entries : Nat)
  | allocc (size align : Nat)
  | freec (ptr size align : Nat)
  deriving DecidableEq

/-- Outcome of `dispatch`: either an immediate return value (no user
pointer was dereferenced) or a forwarded service call. -/
inductive SysOutcome where
  | ret (v : Nat)
  | call (c : SvcCall)
  deriving DecidableEq

/-- The syscall dispatcher (src/sys/syscall/mod.rs, `dispatch`), cut at the
service layer.  Numbers are from `src/sys/syscall/number.rs`. -/
def dispatch (n a1 a2 a3 a4 : Nat) : SysOutcome :=
  match n with
  | 0x01 => .call (.exitc a1)                                     -- EXIT
  | 0x0B => .call (.sleepc a1)                                    -- SLEEP
  | 0x02 =>                                                       -- SPAWN
    if !validate_user_ptr a1 a2 then .ret USIZE_MAX
    else .call (.spawnc a1 a2 a3 a4)
  | 0x0A => .call (.haltc a1)                                     -- HALT
  | 0x05 =>                                                       -- OPEN
    if !validate_user_ptr a1 a2 then .ret USIZE_MAX
    else .call (.openc a1 a2 a3)
  | 0x06 => .call (.closec a1)                                    -- CLOSE
  | 0x03 =>                                                       -- READ
    if !validate_user_ptr a2 a3 then .ret USIZE_MAX
    else .call (.readc a1 a2 a3)
  | 0x04 =>                                                       -- WRITE
    if !validate_user_ptr a2 a3 then .ret USIZE_MAX
    else .call (.writec a1 a2 a3)
  | 0x08 => .call (.dupc a1 a2)                                   -- DUP
  | 0x07 =>                                                       -- STAT
    if !validate_user_ptr a1 a2 then .ret USIZE_MAX
    else if !validate_user_ptr a3 fileInfoSize then .ret USIZE_MAX
    else .call (.statc a1 a2 a3)
  | 0x09 =>                                                       -- REMOVE
    if !validate_user_ptr a1 a2 then .ret USIZE_MAX
    else .call (.removec a1 a2)
  | 0x0F => .call (.kindc a1)                                     -- KIND
  | 0x10 =>                                                       -- SEND
    if !validate_user_ptr a3 a4 then .ret USIZE_MAX
    else .call (.sendc a1 a2 a3 a4)
  | 0x11 =>                                                       -- RECV
    if !validate_user_ptr a1 msgStructSize then .ret USIZE_MAX
    else .call (.recvc a1)
  | 0x0C =>                                                       -- POLL
    if !validate_user_ptr a1 (min (a2 * pollEntrySize) USIZE_MAX) then .ret USIZE_MAX
    else .call (.pollc a1 a2)
  | 0x0D => .call (.allocc a1 a2)                                 -- ALLOC
  | 0x0E => .call (.freec a1 a2 a3)                               -- FREE
  | _ => .ret USIZE_MAX

/-- The syscalls that transit a user `(ptr, len)` pair:
READ, WRITE, OPEN, STAT, REMOVE, POLL, SEND, RECV. -/
def ptrSyscalls : List Nat := [0x03, 0x04, 0x05, 0x07, 0x09, 0x0C, 0x10, 0x11]

/-- The `(ptr, len)` pairs syscall `n` validates before dereferencing (the
byte length of a POLL list is its entry count times the entry size,
computed with `usize::saturating_mul`). -/
def ptrArgs (n a1 a2 a3 a4 : Nat) : List (Nat × Nat) :=
  match n with
  | 0x03 => [(a2, a3)]
  | 0x04 => [(a2, a3)]
  | 0x05 => [(a1, a2)]
  | 0x07 => [(a1, a2), (a3, fileInfoSize)]
  | 0x09 => [(a1, a2)]
  | 0x0C => [(a1, min (a2 * pollEntrySize) USIZE_MAX)]
  | 0x10 => [(a3, a4)]
  | 0x11 => [(a1, msgStructSize)]
  | _ => []

/-- The spec's validity condition on a user `(ptr, len)` pair: `ptr + len`
does not overflow `usize`, and every byte of `[ptr, ptr+len)` lies in the
userspace window `[USER_BASE, USER_BASE + (MAX_PROCS-1)*MAX_PROC_MEM)`
(the window's upper bound is the first address past the last user byte). -/
def rangeWithinUser (ptr len : Nat) : Prop :=
  ptr + len ≤ USIZE_MAX ∧ Set.Ico ptr (ptr + len) ⊆ Set.Ico USER_BASE userEnd

instance (ptr len : Nat) : Decidable (rangeWithinUser ptr len) :=
  decidable_of_iff (ptr + len ≤ USIZE_MAX ∧ (len = 0 ∨ (USER_BASE ≤ ptr ∧ ptr + len ≤ userEnd)))
    (by
      unfold rangeWithinUser
      constructor
      · rintro ⟨h1, h2⟩
        refine ⟨h1, ?_⟩
        rcases h2 with h0 | ⟨ha, hb⟩
        · subst h0; simp
        · intro x hx
          simp only [Set.mem_Ico] at hx ⊢
          omega
      · rintro ⟨h1, hsub⟩
        refine ⟨h1, ?_⟩
        by_cases h0 : len = 0
        · exact Or.inl h0
        · right
          have hx := hsub (a := ptr) (by simp only [Set.mem_Ico]; omega)
          have hy := hsub (a := ptr + len - 1) (by simp only [Set.mem_Ico]; omega)
          simp only [Set.mem_Ico] at hx hy
          omega)

/-! ### Process records (src/sys/process.rs, src/sys/ipc.rs) -/

/-- `sys::ipc::BlockState`. -/
inductive BlockState where
  | Running
  | WaitingSend (target : Nat)
  | WaitingRecv
  deriving DecidableEq

/-- `sys::ipc::Message`: sender pid, user-defined kind, fixed 64-byte
payload (bytes as `Nat`). -/
structure Message where
  sender : Nat
  kind : Nat
  data : List Nat
  deriving DecidableEq

/-- `CpuRegisters` (src/sys/process.rs): full general-purpose register
file, callee-saved and caller-saved. -/
structure CpuRegisters where
  r15 : Nat
  r14 : Nat
  r13 : Nat
  r12 : Nat
  rbp : Nat
  rbx : Nat
  r11 : Nat
  r10 : Nat
  r9 : Nat
  r8 : Nat
  rdi : Nat
  rsi : Nat
  rdx : Nat
  rcx : Nat
  rax : Nat
  deriving DecidableEq

def CpuRegisters.default : CpuRegisters :=
  ⟨0, 0, 0, 0, 0, 0, 0, 0, 0, 0, 0, 0, 0, 0, 0⟩

/-- `InterruptStackFrameValue`: instruction pointer, code segment, CPU
flags, stack pointer, stack segment. -/
structure InterruptFrame where
  ip : Nat
  cs : Nat
  flags : Nat
  sp : Nat
  ss : Nat
  deriving DecidableEq

/-- One `Process` record (src/sys/process.rs).  The `data` field (cwd, env,
handle table) and per-process heap allocator are collaborators not touched
by the claims and are omitted from the record. -/
structure Process where
  id : Nat
  parent_id : Nat
  code_base : Nat
  stack_base : Nat
  entry_point : Nat
  pt_frame : Nat
  stack_frame : Option InterruptFrame
  saved_regs : CpuRegisters
  mailbox : Option Message
  block : BlockState
  deriving DecidableEq

/-- `Process::new()`: the default empty record.  `pt_frame` is whatever
`Cr3::read()` returns at construction time, passed in as `cr3`. -/
def Process.new (cr3 : Nat) : Process :=
  { id := 0, parent_id := 0, code_base := 0, stack_base := 0, entry_point := 0,
    pt_frame := cr3, stack_frame := none, saved_regs := CpuRegisters.default,
    mailbox := none, block := .Running }

/-- The process table `PROC_TABLE`, as a total map from slot index to
record (the kernel array has length `MAX_PROCS`; indices are kept in
range by the call sites modelled below). -/
def KTable : Type := Nat → Process

/-- Point update of the process table (a single `table[i] = p` store). -/
def upd (t : KTable) (i : Nat) (p : Process) : KTable :=
  fun j => if j = i then p else t j

/-! ### Scheduler (src/sys/sched.rs) -/

/-- The globals the scheduler touches: `PROC_TABLE`, `CURRENT_PID`,
`NEXT_PID` (monotonic spawn counter), `TICK`, and the CR3 page-table
root register. -/
structure SchedState where
  table : KTable
  currentPid : Nat
  nextPid : Nat
  tickCount : Nat
  cr3 : Nat

/-- The candidate scan shared by `tick()` and `schedule()`:
`for i in 1..n_procs { let candidate = (cur + i) % n_procs;
if candidate == 0 { continue; }
if table[candidate].block == Running { found; break } }`. -/
def findNext (t : KTable) (cur nprocs : Nat) : Option Nat :=
  ((List.range' 1 (nprocs - 1)).find? fun i =>
    decide ((cur + i) % nprocs ≠ 0) && decide ((t ((cur + i) % nprocs)).block = .Running)).map
    fun i => (cur + i) % nprocs

/-- The claim's selection rule, written from the spec's words: scan just
after the current pid, wrapping within `1..MAX_PROCS`, and select the
first slot with `id ≠ 0` and block state `Running`.  Used only to compare
against `findNext`. -/
def findNextClaim (t : KTable) (cur : Nat) : Option Nat :=
  ((List.range' 1 (MAX_PROCS - 1)).find? fun i =>
    decide ((t ((cur - 1 + i) % (MAX_PROCS - 1) + 1)).id ≠ 0) &&
    decide ((t ((cur - 1 + i) % (MAX_PROCS - 1) + 1)).block = .Running)).map
    fun i => (cur - 1 + i) % (MAX_PROCS - 1) + 1

/-- `save_stack_frame(**frame)` followed by `save_registers(*regs)`:
stores the current interrupt frame and register file into the slot of
`CURRENT_PID`. -/
def saveCurrent (s : SchedState) (frame : InterruptFrame) (regs : CpuRegisters) : SchedState :=
  let p := s.table s.currentPid
  { s with table := upd s.table s.currentPid { p with stack_frame := some frame, saved_regs := regs } }

/-- `schedule(frame, regs)` (src/sys/sched.rs): the timer-driven context
switch.  Returns the new global state together with the interrupt frame
and register file left for the outer naked routine to pop. -/
def schedule (s : SchedState) (frame : InterruptFrame) (regs : CpuRegisters) :
    SchedState × InterruptFrame × CpuRegisters :=
  let t := s.tickCount
  let s1 := { s with tickCount := t + 1 }
  if t % SCHED_INTERVAL ≠ 0 then (s1, frame, regs)
  else if s1.nextPid ≤ 1 then (s1, frame, regs)
  else
    let nprocs := s1.nextPid
    let cur := s1.currentPid
    let s2 := saveCurrent s1 frame regs
    match findNext s2.table cur nprocs with
    | none => (s2, frame, regs)
    | some next =>
      if next = cur then (s2, frame, regs)
      else
        let p := s2.table next
        let s3 := { s2 with currentPid := next, cr3 := p.pt_frame }
        let frame2 := match p.stack_frame with
          | some sf => sf
          | none => frame
        (s3, frame2, p.saved_regs)

/-- The fresh interrupt frame `switch_to` synthesizes with its `iretq`
sequence: user entry point, user stack top, user code/stack selectors
(`ucode`/`udata`, from the GDT), and `RFLAGS = 0x200` (interrupt-enable). -/
def freshFrame (ucode udata : Nat) (p : Process) : InterruptFrame :=
  { ip := p.code_base + p.entry_point, cs := ucode, flags := 0x200,
    sp := p.stack_base, ss := udata }

/-- `switch_to(next_pid)` (src/sys/sched.rs): the fallback switch used by
`tick()`.  Loads CR3 and issues `iretq` onto a synthesized frame; only
`rax`, `rdi`, `rsi`, `rdx` of the saved registers are restored. -/
def switch_to (ucode udata : Nat) (s : SchedState) (next : Nat) :
    SchedState × InterruptFrame × (Nat × Nat × Nat × Nat) :=
  let p := s.table next
  ({ s with currentPid := next, cr3 := p.pt_frame },
   freshFrame ucode udata p,
   (p.saved_regs.rax, p.saved_regs.rdi, p.saved_regs.rsi, p.saved_regs.rdx))

/-- Result of `tick()`: either no switch happened, or `switch_to`
dispatched into `next` with a synthesized frame. -/
inductive TickResult where
  | noswitch (s : SchedState)
  | switched (s : SchedState) (f : InterruptFrame) (r : Nat × Nat × Nat × Nat)

/-- `tick()` (src/sys/sched.rs): called on every timer interrupt before
`schedule`. -/
def tick (ucode udata : Nat) (s : SchedState) : TickResult :=
  let t := s.tickCount
  let s1 := { s with tickCount := t + 1 }
  if t % SCHED_INTERVAL ≠ 0 then .noswitch s1
  else if s1.nextPid ≤ 1 then .noswitch s1
  else
    match findNext s1.table s1.currentPid s1.nextPid with
    | none => .noswitch s1
    | some next =>
      if next ≠ s1.currentPid then
        let r := switch_to ucode udata s1 next
        .switched r.1 r.2.1 r.2.2
      else .noswitch s1

/-! ### Bitmap frame allocator (src/sys/mem/bitmap.rs)

Physical frames are identified by their frame number (physical address
divided by 4096).  The packed `&[u64]` bitmap is modelled at bit
granularity as `Nat → Bool` (one bit per tracked frame, `true` = used). -/

/-- A usable physical memory region: first frame number and frame count. -/
structure MemRegion where
  first_frame : Nat
  frame_count : Nat
  deriving DecidableEq

def MemRegion.last_frame (r : MemRegion) : Nat :=
  r.first_frame + (r.frame_count - 1)

def MemRegion.containsF (r : MemRegion) (f : Nat) : Bool :=
  decide (r.first_frame ≤ f) && decide (f ≤ r.last_frame)

/-- `BitmapAllocator`: bitmap, next-fit hint, tracked regions (the `Some`
entries of the fixed 32-slot array, in order) and total frame count. -/
structure BitmapAlloc where
  bitmap : Nat → Bool
  next_hint : Nat
  regions : List MemRegion
  n_frames : Nat

def BitmapAlloc.is_used (a : BitmapAlloc) (idx : Nat) : Bool :=
  a.bitmap idx

def BitmapAlloc.set_used (a : BitmapAlloc) (idx : Nat) (b : Bool) : BitmapAlloc :=
  { a with bitmap := fun j => if j = idx then b else a.bitmap j }

/-- The scan of `frame_at_index`, accumulating the base index of each
region. -/
def frame_at_index_go : List MemRegion → Nat → Nat → Option Nat
  | [], _, _ => none
  | r :: rs, base, idx =>
    if idx < base + r.frame_count then some (r.first_frame + (idx - base))
    else frame_at_index_go rs (base + r.frame_count) idx

/-- `frame_at_index(idx)`: the frame number of bitmap index `idx`. -/
def BitmapAlloc.frame_at_index (a : BitmapAlloc) (idx : Nat) : Option Nat :=
  if a.n_frames ≤ idx then none
  else frame_at_index_go a.regions 0 idx

def index_of_frame_go : List MemRegion → Nat → Nat → Option Nat
  | [], _, _ => none
  | r :: rs, base, f =>
    if r.containsF f then some (base + (f - r.first_frame))
    else index_of_frame_go rs (base + r.frame_count) f

/-- `index_of_frame(frame)`: the bitmap index of frame number `f`. -/
def BitmapAlloc.index_of_frame (a : BitmapAlloc) (f : Nat) : Option Nat :=
  index_of_frame_go a.regions 0 f

/-- `allocate_frame()`: next-fit scan from the hint; the first clear bit
is set, the hint advances to its index + 1 and its frame is returned. -/
def BitmapAlloc.allocate_frame (a : BitmapAlloc) : Option Nat × BitmapAlloc :=
  match (List.range a.n_frames).find? fun i => !a.is_used ((a.next_hint + i) % a.n_frames) with
  | none => (none, a)
  | some i =>
    let idx := (a.next_hint + i) % a.n_frames
    let a2 := { a.set_used idx true with next_hint := idx + 1 }
    (a2.frame_at_index idx, a2)

/-- `deallocate_frame(frame)`: clear the bit of a tracked, in-use frame
and lower the hint to `min(next_hint, idx)`. -/
def BitmapAlloc.deallocate_frame (a : BitmapAlloc) (f : Nat) : BitmapAlloc :=
  match a.index_of_frame f with
  | some idx =>
    if a.is_used idx then { a.set_used idx false with next_hint := min a.next_hint idx }
    else a
  | none => a

/-- Total number of frames covered by a region list (the allocator's
construction keeps `n_frames` equal to this). -/
def regionsTotal (rs : List MemRegion) : Nat :=
  (rs.map MemRegion.frame_count).sum

/-! ### Kernel state and process termination (src/sys/process.rs) -/

/-- The globals touched by `terminate` and `Process::create`:
`PROC_TABLE`, `CURRENT_PID`, `ACTIVE_PROCS`, `NEXT_PID`, CR3, and the
frame allocator. -/
structure KState where
  table : KTable
  currentPid : Nat
  activeProcs : Nat
  nextPid : Nat
  cr3 : Nat
  alloc : BitmapAlloc

/-- `terminate()` (src/sys/process.rs).  `release` abstracts
`release_process_pages(pt_frame, code_base, stack_base)` — the paging
collaborator that unmaps the user region and returns its frames to the
allocator; it runs with no process-table lock held.  `ACTIVE_PROCS` is a
`usize`, so `fetch_sub` wraps modulo `2^64`. -/
def terminate (release : Nat → Nat → Nat → BitmapAlloc → BitmapAlloc) (s : KState) : KState :=
  let pid := s.currentPid
  let p := s.table pid
  let parent_id := p.parent_id
  let pt_frame := p.pt_frame
  let s1 := { s with alloc := release pt_frame p.code_base p.stack_base s.alloc }
  let s2 := { s1 with table := upd s1.table pid (Process.new s1.cr3) }
  let s3 := { s2 with activeProcs := (s2.activeProcs + U64_MOD - 1) % U64_MOD }
  let s4 := { s3 with currentPid := parent_id }
  let s5 := { s4 with alloc := s4.alloc.deallocate_frame pt_frame }
  { s5 with cr3 := (s5.table parent_id).pt_frame }

/-! ### IPC (src/sys/ipc.rs)

`send` re-acquires the process-table write lock on every retry, so other
processes can change the table between its critical sections.  The table
contents observed at the k-th lock acquisition are supplied by an
environment `obs : Nat → KTable` (`obs 0` is the validation read; `obs k`
for `k ≥ 1` the k-th loop iteration). -/

/-- Byte payload actually stored: the first `min(|data|, 64)` bytes of
`data`, zero-filled to 64 bytes. -/
def mkPayload (data : List Nat) : List Nat :=
  data.take MSG_PAYLOAD ++ List.replicate (MSG_PAYLOAD - data.length) 0

/-- The table after a successful deposit: `table[target].mailbox = Some(msg);
table[target].block = Running; table[sender].block = Running;`. -/
def depositTable (t : KTable) (sender target : Nat) (msg : Message) : KTable :=
  let t1 := upd t target { t target with mailbox := some msg, block := .Running }
  upd t1 sender { t1 sender with block := .Running }

/-- One critical section of the `send` retry loop, at retry count
`retries`: deposit if the target mailbox is empty; give up past 1000
retries; otherwise mark the sender `WaitingSend` and go around again.
Returns `(some result, table-left-behind)` on return, `(none, table)` on
retry. -/
def sendCrit (t : KTable) (sender target : Nat) (msg : Message) (retries : Nat) :
    Option Nat × KTable :=
  if (t target).mailbox = none then
    (some 0, depositTable t sender target msg)
  else if 1000 < retries + 1 then
    (some USIZE_MAX, upd t sender { t sender with block := .Running })
  else
    (none, upd t sender { t sender with block := .WaitingSend target })

/-- The `send` retry loop: iteration `k` works on `obs k`; the retry
counter makes the loop terminate within 1001 iterations. -/
def sendLoop (obs : Nat → KTable) (sender target : Nat) (msg : Message)
    (k retries : Nat) : Nat × KTable :=
  let t := obs k
  if (t target).mailbox = none then
    (0, depositTable t sender target msg)
  else if h : 1000 < retries + 1 then
    (USIZE_MAX, upd t sender { t sender with block := .Running })
  else
    sendLoop obs sender target msg (k + 1) (retries + 1)
termination_by 1001 - retries
decreasing_by omega

/-- `send(target_pid, kind, data)` (src/sys/ipc.rs): validate the target
under a read lock (`obs 0`), build the fixed payload, then loop.  Returns
the syscall result and the table left behind. -/
def send (obs : Nat → KTable) (curPid target kind : Nat) (data : List Nat) :
    Nat × KTable :=
  if MAX_PROCS ≤ target ∨ ((obs 0 target).id = 0 ∧ target ≠ 0) then
    (USIZE_MAX, obs 0)
  else
    sendLoop obs curPid target ⟨curPid, kind, mkPayload data⟩ 1 0

/-- One critical section of `recv`: take the mailbox if nonempty (mark
`Running`), else mark `WaitingRecv`.  Returns the message taken, if any. -/
def recvCrit (t : KTable) (pid : Nat) : Option Message × KTable :=
  match (t pid).mailbox with
  | some msg => (some msg, upd t pid { t pid with mailbox := none, block := .Running })
  | none => (none, upd t pid { t pid with block := .WaitingRecv })

/-! ### Process creation (src/sys/process.rs, `Process::create` / `spawn`) -/

/-- `7F 45 4C 46`. -/
def ELF_MAGIC : List Nat := [0x7F, 0x45, 0x4C, 0x46]

/-- `7F 43 48 4E` ("CHN" flat binary). -/
def BIN_MAGIC : List Nat := [0x7F, 0x43, 0x48, 0x4E]

/-- A loadable ELF segment as exposed by the `object` crate. -/
structure ElfSegment where
  address : Nat
  size : Nat
  data : List Nat

/-- A parsed ELF object: entry point and loadable segments. -/
structure ElfObj where
  entry : Nat
  segments : List ElfSegment

/-- `find_free_slot()`: first slot in `1..MAX_PROCS` with `id == 0`. -/
def find_free_slot (t : KTable) : Option Nat :=
  (List.range' 1 (MAX_PROCS - 1)).find? fun i => decide ((t i).id = 0)

/-- `find_free_code_base()`: the lowest `USER_BASE + slot * MAX_PROC_MEM`
not claimed by any active process. -/
def find_free_code_base (t : KTable) : Option Nat :=
  ((List.range (MAX_PROCS - 1)).find? fun slot =>
    (List.range' 1 (MAX_PROCS - 1)).all fun i =>
      !(decide ((t i).id ≠ 0) && decide ((t i).code_base = USER_BASE + slot * MAX_PROC_MEM))).map
    fun slot => USER_BASE + slot * MAX_PROC_MEM

/-- Result of `Process::create`: `crashed` models the
`expect("could not allocate frame for page table")` kernel panic on frame
exhaustion; `err` is `Err(())` (the state carries what was mutated before
the failure); `ok` carries the new slot index. -/
inductive CreateResult where
  | crashed
  | err (s : KState)
  | ok (slot : Nat) (s : KState)

/-- `Process::create(bin)` (src/sys/process.rs).  `elfParse` abstracts
`object::File::parse` (a parse failure on an ELF-magic binary falls
through with entry point 0 and no segments, exactly as in the source);
`loadSeg` abstracts `Process::load_segment` — map pages at an address in
the new address space and copy the payload — returning `none` on map
failure.  Copying the kernel's top-level page-table entries touches only
paging state outside this model. -/
def createP (elfParse : List Nat → Option ElfObj)
    (loadSeg : KState → Nat → Nat → List Nat → Option KState)
    (s : KState) (bin : List Nat) : CreateResult :=
  match find_free_slot s.table with
  | none => .err s
  | some slot =>
    match find_free_code_base s.table with
    | none => .err s
    | some code_base =>
      match s.alloc.allocate_frame with
      | (none, _) => .crashed
      | (some pt_frame, alloc2) =>
        let s1 := { s with alloc := alloc2 }
        let stack_base := code_base + MAX_PROC_MEM - 4096
        let loaded : Option (Nat × KState) :=
          if bin.take 4 = ELF_MAGIC then
            match elfParse bin with
            | some obj =>
              (obj.segments.foldlM
                (fun st seg => loadSeg st (code_base + seg.address) seg.size seg.data) s1).map
                fun st => (obj.entry, st)
            | none => some (0, s1)
          else if bin.take 4 = BIN_MAGIC then
            (loadSeg s1 code_base (bin.length - 4) (bin.drop 4)).map fun st => (0, st)
          else none
        match loaded with
        | none => .err s1
        | some (entry_point, s2) =>
          let parent := s2.table s2.currentPid
          let proc : Process :=
            { id := slot, parent_id := parent.id, code_base := code_base,
              stack_base := stack_base, entry_point := entry_point,
              pt_frame := pt_frame, stack_frame := none,
              saved_regs := CpuRegisters.default, mailbox := none, block := .Running }
          let s3 := { s2 with table := upd s2.table slot proc }
          let s4 := { s3 with nextPid := (s3.nextPid + 1) % U64_MOD }
          let s5 := { s4 with activeProcs := (s4.activeProcs + 1) % U64_MOD }
          .ok slot s5

/-- Result of `Process::spawn`: `execed` means `create` succeeded and
`exec` performed the inter-ring return (it never comes back);
`execError` is `Err(ExitCode::ExecError)`. -/
inductive SpawnOutcome where
  | execed (slot : Nat) (s : KState)
  | execError (s : KState)
  | crashed

/-- `Process::spawn(bin, ...)`: `Err` from `create` becomes
`ExitCode::ExecError`. -/
def spawnP (elfParse : List Nat → Option ElfObj)
    (loadSeg : KState → Nat → Nat → List Nat → Option KState)
    (s : KState) (bin : List Nat) : SpawnOutcome :=
  match createP elfParse loadSeg s bin with
  | .ok slot s2 => .execed slot s2
  | .err s2 => .execError s2
  | .crashed => .crashed

/-! ### Concrete states used by witnesses and counterexamples -/

/-- Freed slot 2 (default record: id 0, block `Running`) next to live
slot 3. -/
def c2Table : KTable :=
  upd (fun _ => Process.new 0) 3 { Process.new 0 with id := 3 }

/-- Slot 2 live but blocked in recv, slot 3 live and running. -/
def c2wTable : KTable :=
  upd (upd (fun _ => Process.new 0) 2 { Process.new 0 with id := 2, block := .WaitingRecv })
    3 { Process.new 0 with id := 3 }

/-- Slot 2 live and running, never preempted (`stack_frame = none`). -/
def c3Table : KTable :=
  let p := { Process.new 0 with id := 2, code_base := USER_BASE, pt_frame := 77 }
  upd (fun _ => Process.new 0) 2 { p with stack_base := USER_BASE + MAX_PROC_MEM - 4096 }

def c3State : SchedState :=
  { table := c3Table, currentPid := 1, nextPid := 3, tickCount := 0, cr3 := 5 }

def c3Frame : InterruptFrame := { ip := 111, cs := 8, flags := 514, sp := 222, ss := 16 }

/-- A saved interrupt frame for the C3 witness target. -/
def c3wSF : InterruptFrame := { ip := 9000001, cs := 43, flags := 518, sp := 9000002, ss := 51 }

def c3wTable : KTable :=
  upd (fun _ => Process.new 0) 2
    { Process.new 0 with id := 2, stack_frame := some c3wSF, pt_frame := 88 }

def c3wState : SchedState :=
  { table := c3wTable, currentPid := 1, nextPid := 3, tickCount := 20, cr3 := 5 }

/-- Four tracked frames 0..3, frame 0 in use (the page-table root of the
process about to terminate). -/
def c4Alloc : BitmapAlloc :=
  { bitmap := fun j => decide (j = 0), next_hint := 1, regions := [⟨0, 4⟩], n_frames := 4 }

def c4Table : KTable :=
  upd (fun _ => Process.new 9) 2
    { Process.new 9 with id := 2, parent_id := 1, pt_frame := 0 }

def c4State : KState :=
  { table := c4Table, currentPid := 2, activeProcs := 1, nextPid := 3, cr3 := 0,
    alloc := c4Alloc }

/-- Sender 1 and receiver 2 live, receiver's mailbox empty. -/
def c5Table : KTable :=
  upd (upd (fun _ => Process.new 0) 1 { Process.new 0 with id := 1 })
    2 { Process.new 0 with id := 2 }

/-- Target 2 live with a permanently occupied mailbox. -/
def c6Table : KTable :=
  upd (upd (fun _ => Process.new 0) 1 { Process.new 0 with id := 1 })
    2 { Process.new 0 with id := 2, mailbox := some ⟨3, 9, mkPayload [1]⟩ }

def c8msg : Message := ⟨1, 1, mkPayload []⟩

/-- Slot 1 (the sender) already has a deposited message in its own
mailbox; slot 2's mailbox is also full. -/
def c8Table : KTable :=
  let p1 := { Process.new 0 with id := 1, mailbox := some (Message.mk 3 0 (mkPayload [])) }
  upd (upd (fun _ => Process.new 0) 1 p1) 2 { Process.new 0 with id := 2, mailbox := some c8msg }

/-- Three tracked frames numbered 10..12, bit 0 set. -/
def c7a : BitmapAlloc :=
  { bitmap := fun j => decide (j = 0), next_hint := 0, regions := [⟨10, 3⟩], n_frames := 3 }

/-- All slots 1..7 occupied. -/
def c9FullTable : KTable := fun j => { Process.new 0 with id := j }

def c9Alloc : BitmapAlloc :=
  { bitmap := fun _ => false, next_hint := 0, regions := [⟨0, 2⟩], n_frames := 2 }

def c9FullState : KState :=
  { table := c9FullTable, currentPid := 0, activeProcs := 7, nextPid := 8, cr3 := 0,
    alloc := c9Alloc }

def c9FreeState : KState :=
  { table := upd (fun _ => Process.new 0) 1 { Process.new 0 with id := 1 },
    currentPid := 1, activeProcs := 1, nextPid := 2, cr3 := 0, alloc := c9Alloc }

/-- Environments in which no other process touches the table between the
IPC critical sections. -/
def c5obs : Nat → KTable := fun _ => c5Table

def c6obs : Nat → KTable := fun _ => c6Table

/-- An all-default table (every mailbox empty). -/
def c8wT : KTable := fun _ => Process.new 0

/-! ### Helper lemmas -/

theorem find?_range'_eq_some {p : Nat → Bool} :
    ∀ {k s i : Nat}, (List.range' s k).find? p = some i →
      p i = true ∧ s ≤ i ∧ i < s + k ∧ ∀ j, s ≤ j → j < i → p j = false := by
  intro k
  induction k with
  | zero => intro s i h; simp [List.range'] at h
  | succ k ih =>
    intro s i h
    rw [List.range'_succ] at h
    cases hps : p s with
    | true =>
      rw [List.find?_cons_of_pos _ hps] at h
      injection h with h
      subst h
      exact ⟨hps, Nat.le_refl _, by omega, fun j hj1 hj2 => by omega⟩
    | false =>
      rw [List.find?_cons_of_neg _ (by simp [hps])] at h
      obtain ⟨h1, h2, h3, h4⟩ := ih h
      refine ⟨h1, by omega, by omega, ?_⟩
      intro j hj1 hj2
      rcases Nat.eq_or_lt_of_le hj1 with he | hl
      · rw [← he]; exact hps
      · exact h4 j hl hj2

theorem find?_range'_eq_none {p : Nat → Bool} {k s : Nat}
    (h : (List.range' s k).find? p = none) :
    ∀ j, s ≤ j → j < s + k → p j = false := by
  intro j h1 h2
  have hj : j ∈ List.range' s k := by rw [List.mem_range'_1]; omega
  have := List.find?_eq_none.1 h j hj
  simpa using this

theorem rangeWithinUser_iff (ptr len : Nat) :
    rangeWithinUser ptr len ↔
      (ptr + len ≤ USIZE_MAX ∧ (len = 0 ∨ (USER_BASE ≤ ptr ∧ ptr + len ≤ userEnd))) := by
  have hB : USER_BASE = 8388608 := rfl
  have hE : userEnd = 81788928 := rfl
  unfold rangeWithinUser
  constructor
  · rintro ⟨h1, hsub⟩
    refine ⟨h1, ?_⟩
    by_cases h0 : len = 0
    · exact Or.inl h0
    · right
      have hx := hsub (a := ptr) (by simp only [Set.mem_Ico]; omega)
      have hy := hsub (a := ptr + len - 1) (by simp only [Set.mem_Ico]; omega)
      simp only [Set.mem_Ico] at hx hy
      rw [hB, hE] at hx hy ⊢
      omega
  · rintro ⟨h1, h2⟩
    refine ⟨h1, ?_⟩
    rcases h2 with h0 | ⟨ha, hb⟩
    · subst h0; simp
    · intro x hx
      simp only [Set.mem_Ico] at hx ⊢
      rw [hB] at ha
      rw [hE] at hb
      rw [hB, hE]
      omega

theorem validate_user_ptr_iff (ptr len : Nat) (hp : ptr ≤ USIZE_MAX) :
    validate_user_ptr ptr len = true ↔ rangeWithinUser ptr len := by
  have hM : USIZE_MAX = 18446744073709551615 := rfl
  have hD : U64_MOD = 18446744073709551616 := rfl
  rw [rangeWithinUser_iff]
  unfold validate_user_ptr
  by_cases h0 : len = 0
  · subst h0
    constructor
    · intro _
      exact ⟨by omega, Or.inl rfl⟩
    · intro _
      rfl
  · rw [if_neg h0]
    by_cases hov : U64_MOD ≤ ptr + len
    · rw [if_pos hov]
      rw [hD] at hov
      constructor
      · intro hfalse
        exact absurd hfalse (by simp)
      · rintro ⟨ha, _⟩
        rw [hM] at ha
        omega
    · rw [if_neg hov]
      rw [hD] at hov
      simp only [Bool.and_eq_true, decide_eq_true_eq]
      constructor
      · rintro ⟨ha, hb⟩
        exact ⟨by rw [hM]; omega, Or.inr ⟨ha, hb⟩⟩
      · rintro ⟨h1, h2 | ⟨ha, hb⟩⟩
        · exact absurd h2 h0
        · exact ⟨ha, hb⟩

/-! ### C1 -/

/-- C1: for every syscall that receives a user `(ptr, len)` pair
(OPEN/STAT/REMOVE path, READ/WRITE buffer, SEND data, RECV message
struct, POLL list, and the output pointer of STAT): if any of its pairs
overflows or escapes the userspace window, the dispatcher returns
`usize::MAX` without forwarding to the service layer (so nothing is
dereferenced); otherwise validation succeeds and the syscall proceeds
into the service layer. -/
theorem C1_user_pointer_validation (n a1 a2 a3 a4 : Nat)
    (h1 : a1 ≤ USIZE_MAX) (h2 : a2 ≤ USIZE_MAX) (h3 : a3 ≤ USIZE_MAX)
    (hn : n ∈ ptrSyscalls) :
    ((∀ pl ∈ ptrArgs n a1 a2 a3 a4, rangeWithinUser pl.1 pl.2) →
      ∃ c, dispatch n a1 a2 a3 a4 = SysOutcome.call c) ∧
    ((¬ ∀ pl ∈ ptrArgs n a1 a2 a3 a4, rangeWithinUser pl.1 pl.2) →
      dispatch n a1 a2 a3 a4 = SysOutcome.ret USIZE_MAX) := by
  have key : ∀ (p l : Nat), p ≤ USIZE_MAX → ∀ (c : SvcCall),
      ((rangeWithinUser p l →
        ∃ c2, (if !validate_user_ptr p l then SysOutcome.ret USIZE_MAX else SysOutcome.call c)
          = SysOutcome.call c2) ∧
      (¬ rangeWithinUser p l →
        (if !validate_user_ptr p l then SysOutcome.ret USIZE_MAX else SysOutcome.call c)
          = SysOutcome.ret USIZE_MAX)) := by
    intro p l hp c
    constructor
    · intro hr
      rw [(validate_user_ptr_iff p l hp).2 hr]
      exact ⟨c, rfl⟩
    · intro hr
      have hv : validate_user_ptr p l = false := by
        cases hv : validate_user_ptr p l
        · rfl
        · exact absurd ((validate_user_ptr_iff p l hp).1 hv) hr
      rw [hv]
      rfl
  simp only [ptrSyscalls, List.mem_cons, List.not_mem_nil, or_false] at hn
  rcases hn with rfl | rfl | rfl | rfl | rfl | rfl | rfl | rfl
  · -- READ
    have hd := key a2 a3 h2 (.readc a1 a2 a3)
    exact ⟨fun h => hd.1 (by simpa [ptrArgs] using h),
           fun h => hd.2 (fun hx => h (by simpa [ptrArgs] using hx))⟩
  · -- WRITE
    have hd := key a2 a3 h2 (.writec a1 a2 a3)
    exact ⟨fun h => hd.1 (by simpa [ptrArgs] using h),
           fun h => hd.2 (fun hx => h (by simpa [ptrArgs] using hx))⟩
  · -- OPEN
    have hd := key a1 a2 h1 (.openc a1 a2 a3)
    exact ⟨fun h => hd.1 (by simpa [ptrArgs] using h),
           fun h => hd.2 (fun hx => h (by simpa [ptrArgs] using hx))⟩
  · -- STAT: two pairs, validated in order
    constructor
    · rintro h
      simp only [ptrArgs, List.mem_cons, List.not_mem_nil, or_false, forall_eq_or_imp,
        forall_eq] at h
      obtain ⟨hA, hB⟩ := h
      show ∃ c, (if !validate_user_ptr a1 a2 then SysOutcome.ret USIZE_MAX
        else if !validate_user_ptr a3 fileInfoSize then SysOutcome.ret USIZE_MAX
        else SysOutcome.call (.statc a1 a2 a3)) = SysOutcome.call c
      rw [(validate_user_ptr_iff a1 a2 h1).2 hA, (validate_user_ptr_iff a3 fileInfoSize h3).2 hB]
      exact ⟨_, rfl⟩
    · intro h
      simp only [ptrArgs, List.mem_cons, List.not_mem_nil, or_false, forall_eq_or_imp,
        forall_eq, not_and_or] at h
      show (if !validate_user_ptr a1 a2 then SysOutcome.ret USIZE_MAX
        else if !validate_user_ptr a3 fileInfoSize then SysOutcome.ret USIZE_MAX
        else SysOutcome.call (.statc a1 a2 a3)) = SysOutcome.ret USIZE_MAX
      rcases h with hA | hB
      · have hv : validate_user_ptr a1 a2 = false := by
          cases hv : validate_user_ptr a1 a2
          · rfl
          · exact absurd ((validate_user_ptr_iff a1 a2 h1).1 hv) hA
        rw [hv]; rfl
      · have hv : validate_user_ptr a3 fileInfoSize = false := by
          cases hv : validate_user_ptr a3 fileInfoSize
          · rfl
          · exact absurd ((validate_user_ptr_iff a3 fileInfoSize h3).1 hv) hB
        rw [hv]
        cases validate_user_ptr a1 a2 <;> rfl
  · -- REMOVE
    have hd := key a1 a2 h1 (.removec a1 a2)
    exact ⟨fun h => hd.1 (by simpa [ptrArgs] using h),
           fun h => hd.2 (fun hx => h (by simpa [ptrArgs] using hx))⟩
  · -- POLL
    have hd := key a1 (min (a2 * pollEntrySize) USIZE_MAX) h1 (.pollc a1 a2)
    exact ⟨fun h => hd.1 (by simpa [ptrArgs] using h),
           fun h => hd.2 (fun hx => h (by simpa [ptrArgs] using hx))⟩
  · -- SEND
    have hd := key a3 a4 h3 (.sendc a1 a2 a3 a4)
    exact ⟨fun h => hd.1 (by simpa [ptrArgs] using h),
           fun h => hd.2 (fun hx => h (by simpa [ptrArgs] using hx))⟩
  · -- RECV
    have hd := key a1 msgStructSize h1 (.recvc a1)
    exact ⟨fun h => hd.1 (by simpa [ptrArgs] using h),
           fun h => hd.2 (fun hx => h (by simpa [ptrArgs] using hx))⟩

/-- C1 witness: OPEN with a 4-byte path at `USER_BASE` passes validation
and proceeds. -/
theorem C1_witness :
    (0x05 : Nat) ∈ ptrSyscalls ∧
    (∃ c, dispatch 0x05 USER_BASE 4 0 0 = SysOutcome.call c) :=
  ⟨by decide,
   (C1_user_pointer_validation 0x05 USER_BASE 4 0 0 (by decide) (by decide) (by decide)
     (by decide)).1 (by decide)⟩

/-! ### C10 -/

/-- C10: a zero-length `(ptr, 0)` pair passes `validate_user_ptr` for
every pointer value, even one outside the userspace window, and e.g. a
zero-length READ proceeds into the service layer with an empty buffer
instead of returning the error sentinel. -/
theorem C10_zero_length_passes (ptr : Nat) :
    validate_user_ptr ptr 0 = true ∧
    dispatch 0x03 0 ptr 0 0 = SysOutcome.call (SvcCall.readc 0 ptr 0) := by
  have hv : validate_user_ptr ptr 0 = true := by unfold validate_user_ptr; simp
  refine ⟨hv, ?_⟩
  show (if !validate_user_ptr ptr 0 then SysOutcome.ret USIZE_MAX
    else SysOutcome.call (.readc 0 ptr 0)) = SysOutcome.call (SvcCall.readc 0 ptr 0)
  rw [hv]
  rfl

/-! ### C2 -/

/-- Inverse direction of the `find?` characterization: the first index
satisfying the predicate is returned. -/
theorem find?_range'_of_first {p : Nat → Bool} :
    ∀ {k s i : Nat}, s ≤ i → i < s + k → p i = true →
      (∀ j, s ≤ j → j < i → p j = false) →
      (List.range' s k).find? p = some i := by
  intro k
  induction k with
  | zero => intro s i h1 h2 _ _; omega
  | succ k ih =>
    intro s i h1 h2 hp hf
    rw [List.range'_succ]
    rcases Nat.eq_or_lt_of_le h1 with he | hl
    · subst he
      rw [List.find?_cons_of_pos _ hp]
    · rw [List.find?_cons_of_neg _ (by simp [hf s (Nat.le_refl s) hl])]
      exact ih (by omega) (by omega) hp (fun j hj1 hj2 => hf j (by omega) hj2)

/-- C2 counterexample: with current pid 1 and `NEXT_PID = 4`, a freed
slot 2 (id 0, default block `Running`) next to a live running slot 3,
the scheduler scan selects slot 2 — a slot whose id is 0 — whereas the
claim's rule (wrap within `1..MAX_PROCS`, require id ≠ 0 and Running)
selects slot 3. -/
theorem C2_counterexample :
    findNext c2Table 1 4 = some 2 ∧ (c2Table 2).id = 0 ∧
    findNextClaim c2Table 1 = some 3 := by decide

/-- C2 amended: at a scheduling decision the scan is over offsets
`1 ≤ i < NEXT_PID` (the monotonic spawn counter, not `MAX_PROCS`), the
candidate is `(cur + i) % NEXT_PID`, candidate 0 is skipped, and the
first candidate whose block state is `Running` is selected — the id
field is not examined.  Index 0 is never selected. -/
theorem C2_round_robin_amended (t : KTable) (cur n c : Nat) :
    findNext t cur n = some c ↔
      ∃ i, 1 ≤ i ∧ i < n ∧ c = (cur + i) % n ∧ c ≠ 0 ∧ (t c).block = .Running ∧
        ∀ j, 1 ≤ j → j < i →
          ((cur + j) % n = 0 ∨ (t ((cur + j) % n)).block ≠ .Running) := by
  unfold findNext
  constructor
  · intro h
    rw [Option.map_eq_some'] at h
    obtain ⟨i, hfind, hc⟩ := h
    obtain ⟨hp, h1, h2, hfirst⟩ := find?_range'_eq_some hfind
    simp only [Bool.and_eq_true, decide_eq_true_eq] at hp
    refine ⟨i, h1, by omega, hc.symm, hc ▸ hp.1, hc ▸ hp.2, ?_⟩
    intro j hj1 hj2
    by_cases hz : (cur + j) % n = 0
    · exact Or.inl hz
    · right
      intro hr
      have hcontra := hfirst j hj1 hj2
      simp [hz, hr] at hcontra
  · rintro ⟨i, hi1, hi2, hceq, hc0, hcr, hfirst⟩
    have hp : (fun i => decide ((cur + i) % n ≠ 0) &&
        decide ((t ((cur + i) % n)).block = .Running)) i = true := by
      simp only [Bool.and_eq_true, decide_eq_true_eq]
      exact ⟨hceq ▸ hc0, hceq ▸ hcr⟩
    have hfind : (List.range' 1 (n - 1)).find?
        (fun i => decide ((cur + i) % n ≠ 0) &&
          decide ((t ((cur + i) % n)).block = .Running)) = some i := by
      apply find?_range'_of_first hi1 (by omega) hp
      intro j hj1 hj2
      rcases hfirst j hj1 hj2 with hz | hb
      · simp [hz]
      · simp [hb]
    rw [hfind]
    simp [hceq]

/-- C2 witness: a live but recv-blocked slot 2 is passed over and the
running slot 3 is selected. -/
theorem C2_witness : findNext c2wTable 1 4 = some 3 :=
  (C2_round_robin_amended c2wTable 1 4 3).2
    ⟨2, by decide, by decide, by decide, by decide, by decide, by
      intro j hj1 hj2
      have hj : j = 1 := by omega
      subst hj
      right
      decide⟩

/-! ### C3 -/

theorem findNext_congr_block {t t2 : KTable} (h : ∀ j, (t2 j).block = (t j).block)
    (cur n : Nat) : findNext t2 cur n = findNext t cur n := by
  unfold findNext
  have hp : (fun i => decide ((cur + i) % n ≠ 0) && decide ((t2 ((cur + i) % n)).block = .Running))
      = fun i => decide ((cur + i) % n ≠ 0) && decide ((t ((cur + i) % n)).block = .Running) := by
    funext i
    rw [h]
  rw [hp]

theorem saveCurrent_block (s : SchedState) (f : InterruptFrame) (r : CpuRegisters) (j : Nat) :
    ((saveCurrent s f r).table j).block = (s.table j).block := by
  unfold saveCurrent upd
  by_cases hj : j = s.currentPid <;> simp [hj]

theorem saveCurrent_table_ne (s : SchedState) (f : InterruptFrame) (r : CpuRegisters) {j : Nat}
    (hj : j ≠ s.currentPid) : (saveCurrent s f r).table j = s.table j := by
  unfold saveCurrent upd
  simp [hj]

/-- C3 counterexample: a scheduling decision switches to target 2, which
has never run (`stack_frame = none`); `schedule` leaves the old interrupt
frame (ip 111) in place instead of writing a synthesized frame pointing
at the target's entry point (`USER_BASE + 0`). -/
theorem C3_counterexample :
    c3State.tickCount % SCHED_INTERVAL = 0 ∧ 1 < c3State.nextPid ∧
    findNext c3State.table c3State.currentPid c3State.nextPid = some 2 ∧
    (2 : Nat) ≠ c3State.currentPid ∧
    (c3State.table 2).stack_frame = none ∧
    (schedule c3State c3Frame CpuRegisters.default).2.1 = c3Frame ∧
    c3Frame.ip = 111 ∧
    (c3State.table 2).code_base + (c3State.table 2).entry_point = USER_BASE := by
  decide

/-- C3 amended: in `schedule`, when a target is selected it overwrites
the register file with the target's saved registers, loads the target's
page-table root and becomes current; the interrupt frame is overwritten
with the target's saved frame when one exists and is otherwise left
unchanged (no fresh frame is synthesized on this path).  The fresh frame
(entry point, stack top, user selectors, IF set) is synthesized only by
the separate `switch_to` fallback invoked from `tick()`, which does so
for every target and restores only `rax`, `rdi`, `rsi`, `rdx`. -/
theorem C3_schedule_amended (s : SchedState) (frame : InterruptFrame) (regs : CpuRegisters)
    (next : Nat)
    (hq : s.tickCount % SCHED_INTERVAL = 0)
    (hn : 1 < s.nextPid)
    (hfind : findNext s.table s.currentPid s.nextPid = some next)
    (hne : next ≠ s.currentPid) :
    (schedule s frame regs).1.currentPid = next ∧
    (schedule s frame regs).1.cr3 = (s.table next).pt_frame ∧
    (schedule s frame regs).2.2 = (s.table next).saved_regs ∧
    (∀ sf, (s.table next).stack_frame = some sf → (schedule s frame regs).2.1 = sf) ∧
    ((s.table next).stack_frame = none → (schedule s frame regs).2.1 = frame) ∧
    (∀ ucode udata,
      (switch_to ucode udata s next).2.1 = freshFrame ucode udata (s.table next) ∧
      (switch_to ucode udata s next).1.currentPid = next ∧
      (switch_to ucode udata s next).1.cr3 = (s.table next).pt_frame) := by
  have htab : (saveCurrent { s with tickCount := s.tickCount + 1 } frame regs).table next
      = s.table next := saveCurrent_table_ne _ _ _ hne
  have hblocks : ∀ j,
      ((saveCurrent { s with tickCount := s.tickCount + 1 } frame regs).table j).block
        = (s.table j).block :=
    fun j => saveCurrent_block _ frame regs j
  have hfind2 : findNext (saveCurrent { s with tickCount := s.tickCount + 1 } frame regs).table
      s.currentPid s.nextPid = some next := by
    rw [findNext_congr_block hblocks]
    exact hfind
  have hsch : schedule s frame regs =
      ({ saveCurrent { s with tickCount := s.tickCount + 1 } frame regs with
          currentPid := next, cr3 := (s.table next).pt_frame },
        match (s.table next).stack_frame with
        | some sf => sf
        | none => frame,
        (s.table next).saved_regs) := by
    unfold schedule
    rw [if_neg (by simp [hq])]
    rw [if_neg (by simp; omega)]
    simp only [hfind2]
    rw [if_neg hne]
    rw [htab]
  rw [hsch]
  refine ⟨rfl, rfl, rfl, ?_, ?_, ?_⟩
  · intro sf hsf
    rw [hsf]
  · intro hsf
    rw [hsf]
  · intro ucode udata
    exact ⟨rfl, rfl, rfl⟩

/-- C3 witness: the target has a saved frame; `schedule` installs it and
switches pid, CR3 and registers; `switch_to` on the same target would
synthesize the fresh frame. -/
theorem C3_witness :
    (schedule c3wState c3Frame CpuRegisters.default).2.1 = c3wSF ∧
    (schedule c3wState c3Frame CpuRegisters.default).1.currentPid = 2 ∧
    (schedule c3wState c3Frame CpuRegisters.default).1.cr3 = 88 ∧
    (switch_to 43 51 c3wState 2).2.1 = freshFrame 43 51 (c3wState.table 2) := by
  have h := C3_schedule_amended c3wState c3Frame CpuRegisters.default 2
    (by decide) (by decide) (by decide) (by decide)
  exact ⟨h.2.2.2.1 c3wSF (by decide), h.1, h.2.1, (h.2.2.2.2.2 43 51).1⟩

/-! ### C7 -/

theorem frame_at_index_go_some :
    ∀ (rs : List MemRegion) (base idx : Nat), base ≤ idx → idx < base + regionsTotal rs →
      ∃ f, frame_at_index_go rs base idx = some f := by
  intro rs
  induction rs with
  | nil =>
    intro base idx h1 h2
    unfold regionsTotal at h2
    simp at h2
    omega
  | cons r rs ih =>
    intro base idx h1 h2
    unfold frame_at_index_go
    by_cases hlt : idx < base + r.frame_count
    · rw [if_pos hlt]
      exact ⟨_, rfl⟩
    · rw [if_neg hlt]
      apply ih (base + r.frame_count) idx (by omega)
      unfold regionsTotal at h2 ⊢
      simp only [List.map_cons, List.sum_cons] at h2
      omega

theorem frame_at_index_set_used (a : BitmapAlloc) (idx : Nat) (b : Bool) (h j : Nat) :
    ({ a.set_used idx b with next_hint := h } : BitmapAlloc).frame_at_index j
      = a.frame_at_index j := rfl

/-- Scanning `n` offsets from any hint hits every index below `n`. -/
theorem mod_scan_surj (hint n idx : Nat) (h : idx < n) :
    ∃ i, i < n ∧ (hint + i) % n = idx := by
  have hn0 : 0 < n := by omega
  refine ⟨(idx + n - hint % n) % n, Nat.mod_lt _ hn0, ?_⟩
  rw [Nat.add_mod_mod]
  have hlt : hint % n < n := Nat.mod_lt _ hn0
  have h2 : hint + (idx + n - hint % n) = n * (hint / n) + (idx + n) := by
    have := Nat.div_add_mod hint n
    omega
  rw [h2, Nat.mul_add_mod, Nat.add_mod_right]
  exact Nat.mod_eq_of_lt h

/-- C7: `allocate_frame` scans from the hint (wrapping), returns the
frame of the first clear bit, sets that bit and advances the hint to the
index + 1; it returns `none` exactly when every tracked bit is set
(assuming the construction invariant that the regions cover `n_frames`
frames); `deallocate_frame` on a tracked, in-use frame clears its bit
and lowers the hint to `min(next_hint, idx)`. -/
theorem C7_frame_allocator (a : BitmapAlloc) :
    ((regionsTotal a.regions = a.n_frames) →
      ((a.allocate_frame.1 = none) ↔ ∀ idx, idx < a.n_frames → a.is_used idx = true)) ∧
    (∀ f a2, a.allocate_frame = (some f, a2) →
      ∃ i, i < a.n_frames ∧
        a.is_used ((a.next_hint + i) % a.n_frames) = false ∧
        (∀ j, j < i → a.is_used ((a.next_hint + j) % a.n_frames) = true) ∧
        a.frame_at_index ((a.next_hint + i) % a.n_frames) = some f ∧
        a2.is_used ((a.next_hint + i) % a.n_frames) = true ∧
        a2.next_hint = (a.next_hint + i) % a.n_frames + 1) ∧
    (∀ f idx, a.index_of_frame f = some idx → a.is_used idx = true →
      ((a.deallocate_frame f).is_used idx = false ∧
       (a.deallocate_frame f).next_hint = min a.next_hint idx)) := by
  refine ⟨?_, ?_, ?_⟩
  · intro hwf
    constructor
    · intro hnone idx hidx
      by_contra hcl
      have hcl2 : a.is_used idx = false := by
        cases hv : a.is_used idx
        · rfl
        · exact absurd hv hcl
      obtain ⟨i, hi, heq⟩ := mod_scan_surj a.next_hint a.n_frames idx hidx
      unfold BitmapAlloc.allocate_frame at hnone
      cases hfind : (List.range a.n_frames).find?
          (fun i => !a.is_used ((a.next_hint + i) % a.n_frames)) with
      | none =>
        have := List.find?_eq_none.1 hfind i (by rw [List.mem_range]; exact hi)
        simp [heq, hcl2] at this
      | some i0 =>
        rw [hfind] at hnone
        simp only at hnone
        have hi0 : i0 < a.n_frames := List.mem_range.1 (List.mem_of_find?_eq_some hfind)
        have hn0 : 0 < a.n_frames := by omega
        have hidx0 : (a.next_hint + i0) % a.n_frames < a.n_frames := Nat.mod_lt _ hn0
        obtain ⟨fx, hfx⟩ := frame_at_index_go_some a.regions 0 ((a.next_hint + i0) % a.n_frames)
          (Nat.zero_le _) (by rw [hwf]; omega)
        rw [frame_at_index_set_used] at hnone
        unfold BitmapAlloc.frame_at_index at hnone
        rw [if_neg (by omega)] at hnone
        rw [hfx] at hnone
        cases hnone
    · intro hall
      unfold BitmapAlloc.allocate_frame
      have hfind : (List.range a.n_frames).find?
          (fun i => !a.is_used ((a.next_hint + i) % a.n_frames)) = none := by
        rw [List.find?_eq_none]
        intro x hx
        rw [List.mem_range] at hx
        have hn0 : 0 < a.n_frames := by omega
        have := hall ((a.next_hint + x) % a.n_frames) (Nat.mod_lt _ hn0)
        simp [this]
      rw [hfind]
  · intro f a2 h
    unfold BitmapAlloc.allocate_frame at h
    cases hfind : (List.range a.n_frames).find?
        (fun i => !a.is_used ((a.next_hint + i) % a.n_frames)) with
    | none =>
      rw [hfind] at h
      simp at h
    | some i =>
      rw [hfind] at h
      simp only at h
      rw [List.range_eq_range'] at hfind
      obtain ⟨hp, _, hi2, hfirst⟩ := find?_range'_eq_some hfind
      refine ⟨i, by omega, by simpa using hp, ?_, ?_, ?_, ?_⟩
      · intro j hj
        have := hfirst j (Nat.zero_le j) hj
        simpa using this
      · have hfst := congrArg Prod.fst h
        simp only at hfst
        rw [frame_at_index_set_used] at hfst
        exact hfst
      · have hsnd := congrArg Prod.snd h
        simp only at hsnd
        rw [← hsnd]
        unfold BitmapAlloc.is_used BitmapAlloc.set_used
        simp
      · have hsnd := congrArg Prod.snd h
        simp only at hsnd
        rw [← hsnd]
  · intro f idx hio hiu
    unfold BitmapAlloc.deallocate_frame
    simp only [hio]
    rw [if_pos hiu]
    constructor
    · unfold BitmapAlloc.is_used BitmapAlloc.set_used
      simp
    · rfl

/-- C7 witness: on a 3-frame allocator with bit 0 set and hint 0, the
exhaustion test and a deallocation of tracked frame 10 (bitmap index 0)
behave as stated. -/
theorem C7_witness :
    ((c7a.allocate_frame.1 = none) ↔ ∀ idx, idx < c7a.n_frames → c7a.is_used idx = true) ∧
    ((c7a.deallocate_frame 10).is_used 0 = false ∧
     (c7a.deallocate_frame 10).next_hint = min c7a.next_hint 0) ∧
    (∃ i, i < c7a.n_frames ∧
      c7a.is_used ((c7a.next_hint + i) % c7a.n_frames) = false ∧
      (∀ j, j < i → c7a.is_used ((c7a.next_hint + j) % c7a.n_frames) = true) ∧
      c7a.frame_at_index ((c7a.next_hint + i) % c7a.n_frames) = some 11 ∧
      (c7a.allocate_frame.2).is_used ((c7a.next_hint + i) % c7a.n_frames) = true ∧
      (c7a.allocate_frame.2).next_hint = (c7a.next_hint + i) % c7a.n_frames + 1) :=
  ⟨(C7_frame_allocator c7a).1 (by decide),
   (C7_frame_allocator c7a).2.2 10 0 (by decide) (by decide),
   (C7_frame_allocator c7a).2.1 11 c7a.allocate_frame.2 (Prod.ext (by decide) rfl)⟩

/-! ### C4 -/

/-- C4: after `terminate()` runs for the current process: its slot holds
the default empty record (id 0), the page-table root frame's bit is
cleared in the allocator (given that the frame is tracked and in use
after the page-release phase), the active-process count drops by exactly
one, and the current pid becomes the terminated process's parent id. -/
theorem C4_terminate (release : Nat → Nat → Nat → BitmapAlloc → BitmapAlloc)
    (s : KState) (idx : Nat)
    (ha1 : 1 ≤ s.activeProcs) (ha2 : s.activeProcs < U64_MOD)
    (hio : (release (s.table s.currentPid).pt_frame (s.table s.currentPid).code_base
        (s.table s.currentPid).stack_base s.alloc).index_of_frame
        (s.table s.currentPid).pt_frame = some idx)
    (hiu : (release (s.table s.currentPid).pt_frame (s.table s.currentPid).code_base
        (s.table s.currentPid).stack_base s.alloc).is_used idx = true) :
    (terminate release s).table s.currentPid = Process.new s.cr3 ∧
    ((terminate release s).table s.currentPid).id = 0 ∧
    (terminate release s).alloc.is_used idx = false ∧
    (terminate release s).activeProcs = s.activeProcs - 1 ∧
    (terminate release s).currentPid = (s.table s.currentPid).parent_id := by
  unfold terminate
  simp only []
  refine ⟨?_, ?_, ?_, ?_, ?_⟩
  · unfold upd
    simp
  · unfold upd
    simp [Process.new]
  · show ((release _ _ _ s.alloc).deallocate_frame (s.table s.currentPid).pt_frame).is_used idx
      = false
    unfold BitmapAlloc.deallocate_frame
    simp only [hio]
    rw [if_pos hiu]
    unfold BitmapAlloc.is_used BitmapAlloc.set_used
    simp
  · show (s.activeProcs + U64_MOD - 1) % U64_MOD = s.activeProcs - 1
    have hD : U64_MOD = 18446744073709551616 := rfl
    rw [hD] at ha2 ⊢
    omega
  · trivial

/-- C4 witness: process 2 (parent 1, page-table frame 0) terminates; its
slot is reset, bitmap bit 0 clears, the active count drops 1 → 0 and the
current pid becomes 1. -/
theorem C4_witness :
    (terminate (fun _ _ _ a => a) c4State).table 2 = Process.new 0 ∧
    ((terminate (fun _ _ _ a => a) c4State).table 2).id = 0 ∧
    (terminate (fun _ _ _ a => a) c4State).alloc.is_used 0 = false ∧
    (terminate (fun _ _ _ a => a) c4State).activeProcs = 0 ∧
    (terminate (fun _ _ _ a => a) c4State).currentPid = 1 := by
  have h := C4_terminate (fun _ _ _ a => a) c4State 0 (by decide) (by decide)
    (by decide) (by decide)
  exact ⟨h.1, h.2.1, h.2.2.1, h.2.2.2.1, h.2.2.2.2⟩

/-! ### C5, C6, C8: IPC -/

theorem upd_same {t : KTable} {i : Nat} {q : Process} : upd t i q i = q := by
  unfold upd
  simp

theorem upd_ne {t : KTable} {i j : Nat} {q : Process} (h : j ≠ i) : upd t i q j = t j := by
  unfold upd
  simp [h]

/-- The three possible tables a send critical section leaves behind. -/
theorem sendCrit_snd (t : KTable) (sender target : Nat) (msg : Message) (r : Nat) :
    (sendCrit t sender target msg r).2 = depositTable t sender target msg ∨
    (sendCrit t sender target msg r).2 = upd t sender { t sender with block := .Running } ∨
    (sendCrit t sender target msg r).2
      = upd t sender { t sender with block := .WaitingSend target } := by
  unfold sendCrit
  split_ifs <;> simp

theorem sendLoop_eq (obs : Nat → KTable) (sender target : Nat) (msg : Message)
    (k retries : Nat) :
    sendLoop obs sender target msg k retries =
      match sendCrit (obs k) sender target msg retries with
      | (some v, t) => (v, t)
      | (none, _) => sendLoop obs sender target msg (k + 1) (retries + 1) := by
  rw [sendLoop]
  unfold sendCrit
  split_ifs with h1 h2 <;> rfl

/-- Where each slot of the deposit table comes from. -/
theorem depositTable_block_or (t : KTable) (sender target : Nat) (msg : Message) (p : Nat) :
    (depositTable t sender target msg p).block = .Running ∨
    depositTable t sender target msg p = t p := by
  unfold depositTable upd
  by_cases hps : p = sender
  · rw [if_pos hps]
    left
    rfl
  · rw [if_neg hps]
    by_cases hpt : p = target
    · rw [if_pos hpt]
      left
      rfl
    · rw [if_neg hpt]
      right
      rfl

theorem depositTable_target (t : KTable) (sender target : Nat) (msg : Message) :
    ((depositTable t sender target msg) target).mailbox = some msg ∧
    ((depositTable t sender target msg) target).block = .Running := by
  unfold depositTable upd
  by_cases h : target = sender <;> simp [h]

theorem sendCrit_ret_zero {t : KTable} {sender target : Nat} {msg : Message} {r : Nat}
    {t2 : KTable} (hc : sendCrit t sender target msg r = (some 0, t2)) :
    (t target).mailbox = none ∧ t2 = depositTable t sender target msg := by
  unfold sendCrit at hc
  split_ifs at hc with h1 h2
  · injection hc with hfst hsnd
    exact ⟨h1, hsnd.symm⟩
  · injection hc with hfst hsnd
    injection hfst with hv
    exact absurd hv (by decide)
  · injection hc with hfst hsnd
    exact Option.noConfusion hfst

theorem sendCrit_retry_bound {t : KTable} {sender target : Nat} {msg : Message} {r : Nat}
    {t2 : KTable} (hc : sendCrit t sender target msg r = (none, t2)) : r + 1 ≤ 1000 := by
  unfold sendCrit at hc
  split_ifs at hc with h1 h2
  · injection hc with hfst _
    exact Option.noConfusion hfst
  · injection hc with hfst _
    exact Option.noConfusion hfst
  · omega

/-- `sendLoop` returns 0 only by depositing into the target mailbox at
some observation `j`. -/
theorem sendLoop_ret_zero {obs : Nat → KTable} {sender target : Nat} {msg : Message} :
    ∀ (m k r : Nat) {t2 : KTable}, 1001 - r ≤ m →
      sendLoop obs sender target msg k r = (0, t2) →
      ∃ j, ((obs j) target).mailbox = none ∧ t2 = depositTable (obs j) sender target msg := by
  intro m
  induction m with
  | zero =>
    intro k r t2 hm h
    rw [sendLoop_eq] at h
    rcases hc : sendCrit (obs k) sender target msg r with ⟨ov, t⟩
    rw [hc] at h
    cases ov with
    | some v =>
      change (v, t) = (0, t2) at h
      injection h with hv ht
      subst hv
      subst ht
      obtain ⟨hmb, hdep⟩ := sendCrit_ret_zero hc
      exact ⟨k, hmb, hdep⟩
    | none =>
      have := sendCrit_retry_bound hc
      omega
  | succ m ih =>
    intro k r t2 hm h
    rw [sendLoop_eq] at h
    rcases hc : sendCrit (obs k) sender target msg r with ⟨ov, t⟩
    rw [hc] at h
    cases ov with
    | some v =>
      change (v, t) = (0, t2) at h
      injection h with hv ht
      subst hv
      subst ht
      obtain ⟨hmb, hdep⟩ := sendCrit_ret_zero hc
      exact ⟨k, hmb, hdep⟩
    | none =>
      change sendLoop obs sender target msg (k + 1) (r + 1) = (0, t2) at h
      exact ih (k + 1) (r + 1) (by omega) h

theorem mkPayload_take (data : List Nat) :
    (mkPayload data).take (min data.length MSG_PAYLOAD)
      = data.take (min data.length MSG_PAYLOAD) := by
  have hP : MSG_PAYLOAD = 64 := rfl
  unfold mkPayload
  rw [hP]
  rw [List.take_append_of_le_length (by simp)]
  rw [List.take_take]
  congr 1
  omega

/-- C5: if `send(P, K, B)` returns 0 then the target mailbox holds a
message with sender = caller, kind = K, and payload starting with the
first `min(|B|, 64)` bytes of B; the next `recv` critical section at P
takes exactly that message and returns it (result 0), clearing the slot. -/
theorem C5_send_recv_roundtrip (obs : Nat → KTable) (cur target kind : Nat)
    (data : List Nat) (t2 : KTable)
    (h : send obs cur target kind data = (0, t2)) :
    ∃ m : Message,
      (t2 target).mailbox = some m ∧
      recvCrit t2 target =
        (some m, upd t2 target { t2 target with mailbox := none, block := .Running }) ∧
      m.sender = cur ∧ m.kind = kind ∧
      m.data.take (min data.length MSG_PAYLOAD) = data.take (min data.length MSG_PAYLOAD) := by
  unfold send at h
  split_ifs at h with hval
  · injection h with h1 _
    exact absurd h1 (by decide)
  · obtain ⟨j, hmb, ht2⟩ := sendLoop_ret_zero 1001 1 0 (by omega) h
    obtain ⟨hdm, hdb⟩ := depositTable_target (obs j) cur target ⟨cur, kind, mkPayload data⟩
    have hm : (t2 target).mailbox = some ⟨cur, kind, mkPayload data⟩ := by
      rw [ht2]
      exact hdm
    refine ⟨⟨cur, kind, mkPayload data⟩, hm, ?_, rfl, rfl, mkPayload_take data⟩
    unfold recvCrit
    simp only [hm]

/-- C5 witness: pid 1 sends kind 7, data `[1,2,3]` to pid 2 with an
undisturbed table; recv at 2 yields that message. -/
theorem C5_witness :
    ∃ m : Message,
      (((send c5obs 1 2 7 [1, 2, 3]).2) 2).mailbox = some m ∧
      recvCrit (send c5obs 1 2 7 [1, 2, 3]).2 2 =
        (some m, upd (send c5obs 1 2 7 [1, 2, 3]).2 2
          { (send c5obs 1 2 7 [1, 2, 3]).2 2 with mailbox := none, block := .Running }) ∧
      m.sender = 1 ∧ m.kind = 7 ∧
      m.data.take (min 3 MSG_PAYLOAD) = [1, 2, 3].take (min 3 MSG_PAYLOAD) := by
  have hc : sendCrit (c5obs 1) 1 2 ⟨1, 7, mkPayload [1, 2, 3]⟩ 0 =
      (some 0, depositTable (c5obs 1) 1 2 ⟨1, 7, mkPayload [1, 2, 3]⟩) := by
    unfold sendCrit
    rw [if_pos (by decide)]
  have hfst : (send c5obs 1 2 7 [1, 2, 3]).1 = 0 := by
    unfold send
    rw [if_neg (by decide)]
    rw [sendLoop_eq, hc]
  exact C5_send_recv_roundtrip c5obs 1 2 7 [1, 2, 3] (send c5obs 1 2 7 [1, 2, 3]).2
    (Prod.ext hfst rfl)

/-- Timeout run: if the target mailbox is occupied at every observation
up to 1001, the loop gives up with `usize::MAX`, marking the sender
`Running`. -/
theorem sendLoop_timeout {obs : Nat → KTable} {sender target : Nat} {msg : Message} :
    ∀ (m k r : Nat), r + m = 1000 → k = r + 1 →
      (∀ j, k ≤ j → j ≤ 1001 → ((obs j) target).mailbox.isSome = true) →
      sendLoop obs sender target msg k r =
        (USIZE_MAX, upd (obs 1001) sender { (obs 1001) sender with block := .Running }) := by
  intro m
  induction m with
  | zero =>
    intro k r h1 h2 hocc
    subst h2
    have hr : r = 1000 := by omega
    subst hr
    rw [sendLoop_eq]
    have hmb : ((obs 1001) target).mailbox ≠ none := by
      have hs := hocc 1001 (by omega) (by omega)
      cases hmm : ((obs 1001) target).mailbox
      · rw [hmm] at hs
        simp at hs
      · simp
    have hc : sendCrit (obs 1001) sender target msg 1000 =
        (some USIZE_MAX, upd (obs 1001) sender { (obs 1001) sender with block := .Running }) := by
      unfold sendCrit
      rw [if_neg hmb, if_pos (by omega)]
    rw [hc]
  | succ m ih =>
    intro k r h1 h2 hocc
    rw [sendLoop_eq]
    have hmb : ((obs k) target).mailbox ≠ none := by
      have hs := hocc k (by omega) (by omega)
      cases hmm : ((obs k) target).mailbox
      · rw [hmm] at hs
        simp at hs
      · simp
    have hc : sendCrit (obs k) sender target msg r =
        (none, upd (obs k) sender { (obs k) sender with block := .WaitingSend target }) := by
      unfold sendCrit
      rw [if_neg hmb, if_neg (by omega)]
    rw [hc]
    exact ih (k + 1) (r + 1) (by omega) (by omega)
      (fun j hj1 hj2 => hocc j (by omega) hj2)

/-- C6: `send` to an out-of-range pid or a free slot (id 0, pid ≠ 0)
returns `usize::MAX` immediately, leaving the table exactly as observed
(no deposit, no blocking); and when the target's mailbox stays occupied
through every retry, `send` gives up after the retry count exceeds 1000,
setting the sender's block state back to `Running` and returning
`usize::MAX`. -/
theorem C6_send_failure (obs : Nat → KTable) (cur target kind : Nat) (data : List Nat) :
    ((MAX_PROCS ≤ target ∨ (((obs 0) target).id = 0 ∧ target ≠ 0)) →
      send obs cur target kind data = (USIZE_MAX, obs 0)) ∧
    (target < MAX_PROCS → (((obs 0) target).id ≠ 0 ∨ target = 0) →
      (∀ j, 1 ≤ j → j ≤ 1001 → ((obs j) target).mailbox.isSome = true) →
      send obs cur target kind data =
        (USIZE_MAX, upd (obs 1001) cur { (obs 1001) cur with block := .Running })) := by
  constructor
  · intro hinv
    unfold send
    rw [if_pos hinv]
  · intro ht hid hocc
    unfold send
    rw [if_neg ?hval]
    case hval =>
      rintro (h | ⟨h0, hne⟩)
      · omega
      · rcases hid with h | h
        · exact h h0
        · exact hne h
    exact sendLoop_timeout 1000 1 0 (by omega) rfl hocc

/-- C6 witness: sending to free pid 9 fails immediately; sending to live
pid 2 whose mailbox never drains times out with the sender set back to
`Running`. -/
theorem C6_witness :
    send c6obs 1 9 0 [] = (USIZE_MAX, c6Table) ∧
    send c6obs 1 2 0 [] =
      (USIZE_MAX, upd c6Table 1 { c6Table 1 with block := .Running }) := by
  constructor
  · exact (C6_send_failure c6obs 1 9 0 []).1 (Or.inl (by decide))
  · exact (C6_send_failure c6obs 1 2 0 []).2 (by decide) (Or.inl (by decide))
      (fun j _ _ => rfl)

/-- C8 counterexample: the claimed invariant (mailbox empty or block
`Running`) holds of `c8Table`, yet one send critical section — a retry
by sender 1 whose own mailbox holds a deposited message — breaks it. -/
theorem C8_counterexample :
    (∀ p, (c8Table p).mailbox = none ∨ (c8Table p).block = .Running) ∧
    ¬ (∀ p, ((sendCrit c8Table 1 2 c8msg 0).2 p).mailbox = none ∨
        ((sendCrit c8Table 1 2 c8msg 0).2 p).block = .Running) := by
  constructor
  · intro p
    by_cases h2 : p = 2
    · right
      simp [c8Table, upd, h2, Process.new]
    · by_cases h1 : p = 1
      · right
        simp [c8Table, upd, h1, h2, Process.new]
      · right
        simp [c8Table, upd, h1, h2, Process.new]
  · intro hAll
    exact absurd (hAll 1) (by decide)

/-- C8 amended: every send and recv critical section preserves the
invariant that a process with a nonempty mailbox is never in state
`WaitingRecv` (it is `Running`, or `WaitingSend` when the retry path of
a send marks a sender whose own mailbox holds a not-yet-received
message). -/
theorem C8_invariant_amended (t : KTable) (sender target pid r : Nat) (msg : Message)
    (hInv : ∀ p, (t p).mailbox = none ∨ (t p).block ≠ .WaitingRecv) :
    (∀ p, ((sendCrit t sender target msg r).2 p).mailbox = none ∨
      ((sendCrit t sender target msg r).2 p).block ≠ .WaitingRecv) ∧
    (∀ p, ((recvCrit t pid).2 p).mailbox = none ∨
      ((recvCrit t pid).2 p).block ≠ .WaitingRecv) := by
  constructor
  · intro p
    rcases sendCrit_snd t sender target msg r with h | h | h
    · rw [h]
      rcases depositTable_block_or t sender target msg p with hb | he
      · right
        rw [hb]
        simp
      · rw [he]
        exact hInv p
    · rw [h]
      by_cases hps : p = sender
      · subst hps
        rw [upd_same]
        right
        simp
      · rw [upd_ne hps]
        exact hInv p
    · rw [h]
      by_cases hps : p = sender
      · subst hps
        rw [upd_same]
        right
        simp
      · rw [upd_ne hps]
        exact hInv p
  · intro p
    cases hmb : (t pid).mailbox with
    | some m =>
      simp only [recvCrit, hmb]
      by_cases hpp : p = pid
      · subst hpp
        rw [upd_same]
        left
        rfl
      · rw [upd_ne hpp]
        exact hInv p
    | none =>
      simp only [recvCrit, hmb]
      by_cases hpp : p = pid
      · subst hpp
        rw [upd_same]
        left
        rfl
      · rw [upd_ne hpp]
        exact hInv p

/-- C8 witness: the amended invariant is preserved from an all-empty
table through one send and one recv critical section. -/
theorem C8_witness :
    (∀ p, ((sendCrit c8wT 1 2 c8msg 0).2 p).mailbox = none ∨
      ((sendCrit c8wT 1 2 c8msg 0).2 p).block ≠ .WaitingRecv) ∧
    (∀ p, ((recvCrit c8wT 1).2 p).mailbox = none ∨
      ((recvCrit c8wT 1).2 p).block ≠ .WaitingRecv) :=
  C8_invariant_amended c8wT 1 2 1 0 c8msg (fun _ => Or.inl rfl)

/-! ### C9 -/

theorem createP_table_full (elfParse : List Nat → Option ElfObj)
    (loadSeg : KState → Nat → Nat → List Nat → Option KState)
    (s : KState) (bin : List Nat)
    (hfull : ∀ i, 1 ≤ i → i < MAX_PROCS → (s.table i).id ≠ 0) :
    createP elfParse loadSeg s bin = .err s := by
  have hslot : find_free_slot s.table = none := by
    unfold find_free_slot
    rw [List.find?_eq_none]
    intro x hx
    rw [List.mem_range'_1] at hx
    have h8 : MAX_PROCS = 8 := rfl
    simp only [decide_eq_true_eq]
    exact hfull x hx.1 (by rw [h8] at hx ⊢; omega)
  unfold createP
  simp only [hslot]

theorem createP_short_bin (elfParse : List Nat → Option ElfObj)
    (loadSeg : KState → Nat → Nat → List Nat → Option KState)
    (s : KState) (bin : List Nat)
    (hshort : bin.length ≤ 3)
    (halloc : (s.alloc.allocate_frame.1).isSome = true) :
    ∃ s2, createP elfParse loadSeg s bin = .err s2 := by
  unfold createP
  cases hslot : find_free_slot s.table with
  | none =>
    refine ⟨s, ?_⟩
    simp only [hslot]
  | some slot =>
    simp only [hslot]
    cases hcb : find_free_code_base s.table with
    | none =>
      refine ⟨s, ?_⟩
      simp only [hcb]
    | some cb =>
      simp only [hcb]
      rcases hal : s.alloc.allocate_frame with ⟨of, a2⟩
      cases of with
      | none =>
        rw [hal] at halloc
        simp at halloc
      | some ptf =>
        simp only [hal]
        have hE : ¬ (bin.take 4 = ELF_MAGIC) := by
          intro hmagic
          have hlen := congrArg List.length hmagic
          rw [List.length_take] at hlen
          have h4 : ELF_MAGIC.length = 4 := rfl
          omega
        have hB : ¬ (bin.take 4 = BIN_MAGIC) := by
          intro hmagic
          have hlen := congrArg List.length hmagic
          rw [List.length_take] at hlen
          have h4 : BIN_MAGIC.length = 4 := rfl
          omega
        refine ⟨{ s with alloc := a2 }, ?_⟩
        simp only [if_neg hE, if_neg hB]

/-- C9: `spawn` on a buffer of at most 3 bytes (too short for either
4-byte magic) returns `ExecError` (provided the page-table frame
allocation does not exhaust physical memory, which would panic instead);
and `spawn` with every slot `1..MAX_PROCS` occupied returns `ExecError`
without mutating any process-table slot. -/
theorem C9_spawn_errors (elfParse : List Nat → Option ElfObj)
    (loadSeg : KState → Nat → Nat → List Nat → Option KState)
    (s : KState) (bin : List Nat) :
    ((∀ i, 1 ≤ i → i < MAX_PROCS → (s.table i).id ≠ 0) →
      spawnP elfParse loadSeg s bin = .execError s) ∧
    (bin.length ≤ 3 → (s.alloc.allocate_frame.1).isSome = true →
      ∃ s2, spawnP elfParse loadSeg s bin = .execError s2) := by
  constructor
  · intro hfull
    unfold spawnP
    rw [createP_table_full elfParse loadSeg s bin hfull]
  · intro hshort halloc
    obtain ⟨s2, h⟩ := createP_short_bin elfParse loadSeg s bin hshort halloc
    refine ⟨s2, ?_⟩
    unfold spawnP
    rw [h]

/-- C9 witness: a full table rejects a 2-byte spawn leaving the state
untouched; a table with free slots also rejects it (magic check). -/
theorem C9_witness :
    spawnP (fun _ => none) (fun st _ _ _ => some st) c9FullState [1, 2]
      = SpawnOutcome.execError c9FullState ∧
    ∃ s2, spawnP (fun _ => none) (fun st _ _ _ => some st) c9FreeState [1, 2]
      = SpawnOutcome.execError s2 := by
  constructor
  · refine (C9_spawn_errors _ _ c9FullState [1, 2]).1 ?_
    intro i h1 h2
    have hid : (c9FullState.table i).id = i := rfl
    omega
  · exact (C9_spawn_errors _ _ c9FreeState [1, 2]).2 (by decide) (by decide)

end Chilena
